import Mathlib

set_option maxRecDepth 100000

/-!
Verification development for the SnapScalp repository (Electron screen-capture
trading-chart analyzer).  The definitions below are a shallow embedding of the
JavaScript source:

* `LLMService.extractJsonFromResponse` (src/main.js, "llm-service" part),
* `LLMService.switchProvider` / `setupProvider` / `analyzeChart`,
* `SnapScalpMain.startAnalysis` / `stopAnalysis` / `captureScreenshot` and the
  two timer callbacks of the analysis loop,
* `SnapScalpRenderer.updateResults` / `updateScenariosTable` (renderer part).

External JavaScript builtins that the source calls are modelled explicitly:
`JSON.parse` is modelled by `jsonParse` (a recursive-descent JSON parser over
`List Char`; JSON numbers are modelled as integers, which covers the whole
payload schema used by the program — the schema's numeric field `confidence`
is an integer, and all other schema fields are strings, arrays or objects;
`\uXXXX` string escapes are not modelled), `parseInt` by `parseIntJs`,
JavaScript truthiness by `jsTruthy`, template-literal stringification by
`jsToString`, and `String.prototype.trim` by `jsTrim` (with the whitespace
class restricted to space, tab, newline and carriage return).  Asynchronous
external effects (the `screenshot-desktop` capture, the `sharp` crop, the
LangChain model invocation) enter the model as explicit `Except`-valued
arguments describing their outcome.
-/

/-- The backquote character, written via its code point. -/
def bq : Char := Char.ofNat 96

/-- Opening curly brace character. -/
def lbrace : Char := Char.ofNat 123

/-- Closing curly brace character. -/
def rbrace : Char := Char.ofNat 125

/-- JSON / JavaScript whitespace as used by the model: space, tab, newline,
carriage return. -/
def isWs (c : Char) : Bool := c = ' ' || c = '\t' || c = '\n' || c = '\r'

/-- Drop leading whitespace. -/
def skipWs (cs : List Char) : List Char := cs.dropWhile isWs

/-- JSON values.  Numbers are modelled as integers (see module docstring). -/
inductive Json where
  | null : Json
  | bool : Bool → Json
  | num : Int → Json
  | str : String → Json
  | arr : List Json → Json
  | obj : List (String × Json) → Json

/-- Parse the body of a JSON string literal (after the opening quote),
returning the decoded characters and the remainder after the closing quote.
Supported escapes: `\" \\ \/ \b \f \n \r \t`. -/
def parseStrAux : List Char → Option (List Char × List Char)
  | [] => none
  | '"' :: rest => some ([], rest)
  | '\\' :: e :: rest =>
    match
      (if e = '"' then some '"'
       else if e = '\\' then some '\\'
       else if e = '/' then some '/'
       else if e = 'b' then some (Char.ofNat 8)
       else if e = 'f' then some (Char.ofNat 12)
       else if e = 'n' then some '\n'
       else if e = 'r' then some '\r'
       else if e = 't' then some '\t'
       else none) with
    | none => none
    | some c =>
      match parseStrAux rest with
      | none => none
      | some (s, r) => some (c :: s, r)
  | c :: rest =>
    match parseStrAux rest with
    | none => none
    | some (s, r) => some (c :: s, r)

/-- Numeric value of a list of decimal digits. -/
def digitsVal (ds : List Char) : Nat := ds.foldl (fun a c => a * 10 + (c.toNat - 48)) 0

/-- Parse a JSON natural-number literal (leading zeros rejected as in JSON). -/
def parseNumAux (cs : List Char) : Option (Nat × List Char) :=
  let ds := cs.takeWhile Char.isDigit
  let rest := cs.dropWhile Char.isDigit
  if ds.isEmpty then none
  else if ds.head? = some '0' && ds.length > 1 then none
  else some (digitsVal ds, rest)

mutual

/-- Recursive-descent JSON value parser (model of `JSON.parse`), fuelled. -/
def parseVal : Nat → List Char → Option (Json × List Char)
  | 0, _ => none
  | fuel + 1, cs =>
    match skipWs cs with
    | [] => none
    | 'n' :: 'u' :: 'l' :: 'l' :: rest => some (.null, rest)
    | 't' :: 'r' :: 'u' :: 'e' :: rest => some (.bool true, rest)
    | 'f' :: 'a' :: 'l' :: 's' :: 'e' :: rest => some (.bool false, rest)
    | '"' :: rest =>
      match parseStrAux rest with
      | none => none
      | some (s, r) => some (.str (String.mk s), r)
    | '[' :: rest =>
      (match skipWs rest with
       | ']' :: r => some (.arr [], r)
       | _ => match parseArrLoop fuel rest with
              | none => none
              | some (xs, r) => some (.arr xs, r))
    | '-' :: rest =>
      match parseNumAux rest with
      | none => none
      | some (n, r) => some (.num (-(Int.ofNat n)), r)
    | c :: rest =>
      if c = lbrace then
        match skipWs rest with
        | c' :: r => if c' = rbrace then some (.obj [], r)
                     else match parseObjLoop fuel rest with
                          | none => none
                          | some (fs, r') => some (.obj fs, r')
        | [] => none
      else if c.isDigit then
        match parseNumAux (c :: rest) with
        | none => none
        | some (n, r) => some (.num (Int.ofNat n), r)
      else none

/-- Comma-separated JSON array elements up to the closing bracket. -/
def parseArrLoop : Nat → List Char → Option (List Json × List Char)
  | 0, _ => none
  | fuel + 1, cs =>
    match parseVal fuel cs with
    | none => none
    | some (v, r) =>
      match skipWs r with
      | ',' :: r' =>
        (match parseArrLoop fuel r' with
         | none => none
         | some (xs, r'') => some (v :: xs, r''))
      | ']' :: r' => some ([v], r')
      | _ => none

/-- Comma-separated JSON object members up to the closing brace. -/
def parseObjLoop : Nat → List Char → Option (List (String × Json) × List Char)
  | 0, _ => none
  | fuel + 1, cs =>
    match skipWs cs with
    | '"' :: rest =>
      (match parseStrAux rest with
       | none => none
       | some (k, r) =>
         match skipWs r with
         | ':' :: r' =>
           (match parseVal fuel r' with
            | none => none
            | some (v, r'') =>
              match skipWs r'' with
              | ',' :: r3 =>
                (match parseObjLoop fuel r3 with
                 | none => none
                 | some (fs, r4) => some ((String.mk k, v) :: fs, r4))
              | c :: r3 => if c = rbrace then some ([(String.mk k, v)], r3) else none
              | [] => none)
         | _ => none)
    | _ => none

end

/-- Model of `JSON.parse` on a character list: parse one JSON value and require
only trailing whitespace after it.  Returns `none` where `JSON.parse` throws. -/
def jsonParseL (cs : List Char) : Option Json :=
  match parseVal (2 * cs.length + 4) cs with
  | none => none
  | some (v, rest) => if skipWs rest = [] then some v else none

/-- Model of `JSON.parse` on strings. -/
def jsonParse (s : String) : Option Json := jsonParseL s.data

/-! ## `LLMService.extractJsonFromResponse`

The source first trims the raw content, then looks for a
fenced block via the regex pattern matching three backquotes followed by
`json`, lazy content and a closing three-backquote fence; else it strips a
generic leading/trailing fence; finally it validates the candidate with
`JSON.parse`, substituting a fixed fallback JSON string on parse failure,
and returns `"{}"` outright for empty (falsy) input. -/

/-- Drop trailing whitespace. -/
def trimEnd (cs : List Char) : List Char := (cs.reverse.dropWhile isWs).reverse

/-- Model of `String.prototype.trim` on character lists. -/
def jsTrimL (cs : List Char) : List Char := trimEnd (cs.dropWhile isWs)

/-- Model of `String.prototype.trim`. -/
def jsTrim (s : String) : String := String.mk (jsTrimL s.data)

/-- Index of the first occurrence of `pat` as a contiguous sublist of `s`. -/
def findSub (pat : List Char) : List Char → Option Nat
  | [] => if pat.isEmpty then some 0 else none
  | c :: s => if pat.isPrefixOf (c :: s) then some 0 else (findSub pat s).map (· + 1)

/-- The characters of the three-backquote fence marker. -/
def fenceChars : List Char := [bq, bq, bq]

/-- The characters of the `json`-tagged fence opener. -/
def tagChars : List Char := [bq, bq, bq, 'j', 's', 'o', 'n']

/-- Inner content of the first `json`-tagged fenced block, trimmed — the
capture of the source regex (its lazy group closes at the first fence marker
after the tag; the group's surrounding whitespace is consumed by the
pattern's whitespace runs and the source trims the capture again, so taking
everything between the tag and the first subsequent fence marker and
trimming is equivalent).  `none` when the regex does not match. -/
def taggedFenceInner (cs : List Char) : Option (List Char) :=
  match findSub tagChars cs with
  | none => none
  | some i =>
    let rest := cs.drop (i + 7)
    match findSub fenceChars rest with
    | none => none
    | some j => some (jsTrimL (rest.take j))

/-- The cleaning phase of `extractJsonFromResponse`: trim, then extract a
`json`-tagged fenced block, else strip generic fence markers
(`slice(3, -3)`), else keep the trimmed content. -/
def cleanContentL (cs0 : List Char) : List Char :=
  let cleaned := jsTrimL cs0
  match taggedFenceInner cleaned with
  | some inner => inner
  | none =>
    if fenceChars.isPrefixOf cleaned && fenceChars.isSuffixOf cleaned then
      jsTrimL ((cleaned.drop 3).take (cleaned.length - 6))
    else cleaned

/-- String-level cleaning phase. -/
def cleanContent (s : String) : String := String.mk (cleanContentL s.data)

/-- The fallback JSON string produced on validation failure (the
`JSON.stringify` of the fallback object in the source). -/
def jsonFallback : String :=
  "\x7b\"decision\":\"Wait\",\"confidence\":50,\"reason\":\"JSON parsing error\",\"scenarios\":[],\"levels\":\x7b\"support\":[],\"resistance\":[]\x7d\x7d"

/-- Model of `LLMService.extractJsonFromResponse`.  Empty (falsy) content
yields `"{}"`; otherwise the cleaned content is returned when it passes
`JSON.parse` validation and the fallback JSON string when it does not. -/
def extractJsonFromResponse (content : String) : String :=
  if content = "" then "\x7b\x7d"
  else
    let cleaned := cleanContent content
    match jsonParse cleaned with
    | some _ => cleaned
    | none => jsonFallback

/-! ## JavaScript value helpers used by the renderer model -/

/-- JavaScript truthiness of a JSON value. -/
def jsTruthy : Json → Bool
  | .null => false
  | .bool b => b
  | .num n => !(n = 0 : Bool)
  | .str s => !(s = "" : Bool)
  | .arr _ => true
  | .obj _ => true

mutual

/-- JavaScript `ToString` as used by template literals: arrays join their
elements with commas (`null` elements become empty), objects print as
`[object Object]`. -/
def jsToString : Json → String
  | .null => "null"
  | .bool true => "true"
  | .bool false => "false"
  | .num n => toString n
  | .str s => s
  | .arr xs => String.intercalate "," (jsToStringElems xs)
  | .obj _ => "[object Object]"

/-- Element-wise stringification for `Array.prototype.join` / `toString`:
a `null` element contributes the empty string. -/
def jsToStringElems : List Json → List String
  | [] => []
  | .null :: xs => "" :: jsToStringElems xs
  | x :: xs => jsToString x :: jsToStringElems xs

end

/-- `Array.prototype.join(sep)`. -/
def jsJoin (sep : String) (xs : List Json) : String :=
  String.intercalate sep (jsToStringElems xs)

/-- ASCII lower-casing of a character. -/
def asciiLower (c : Char) : Char :=
  if 'A' ≤ c && c ≤ 'Z' then Char.ofNat (c.toNat + 32) else c

/-- ASCII upper-casing of a character. -/
def asciiUpper (c : Char) : Char :=
  if 'a' ≤ c && c ≤ 'z' then Char.ofNat (c.toNat - 32) else c

/-- Model of `String.prototype.toLowerCase` (ASCII). -/
def jsToLower (s : String) : String := String.mk (s.data.map asciiLower)

/-- Model of `String.prototype.toUpperCase` (ASCII). -/
def jsToUpper (s : String) : String := String.mk (s.data.map asciiUpper)

/-- Leading-integer parse of `parseInt` on a string: skip whitespace, read an
optional sign and then a maximal digit run, ignoring everything after it;
`none` models `NaN` (no digits).  The hexadecimal `0x` form is not modelled. -/
def parseIntStr (s : String) : Option Int :=
  let cs := s.data.dropWhile isWs
  match cs with
  | '-' :: rest =>
    let ds := rest.takeWhile Char.isDigit
    if ds.isEmpty then none else some (-(Int.ofNat (digitsVal ds)))
  | '+' :: rest =>
    let ds := rest.takeWhile Char.isDigit
    if ds.isEmpty then none else some (Int.ofNat (digitsVal ds))
  | _ =>
    let ds := cs.takeWhile Char.isDigit
    if ds.isEmpty then none else some (Int.ofNat (digitsVal ds))

/-- Model of the JavaScript builtin `parseInt` applied to a JSON value: the
argument is stringified and the leading integer is parsed; `none` models
`NaN`.  An integral number argument parses back to itself. -/
def parseIntJs : Json → Option Int
  | .num n => some n
  | v => parseIntStr (jsToString v)

/-! ## `SnapScalpRenderer.updateResults` / `updateScenariosTable`

The renderer parses the analysis text, extracts fields with `||`-defaulting,
truncates (`substring(0,80)`, `slice(0,2)`, targets `[0]`/`[1]`/`[2]`,
levels `slice(0,2)`), and writes the widgets.  Any exception inside the
`try` (including `JSON.parse` failure and calling a string method on a
non-string field) is caught and surfaces as the `Parse error` status; the
outcome is modelled atomically.  The JavaScript evaluation-order differences
between the throw sites do not change the outcome. -/

/-- Property lookup on a JSON value that is known not to be `null`:
objects look up the last binding of the key (as `JSON.parse` keeps the last
duplicate), all other values yield `undefined` (`none`). -/
def getFieldNN : Json → String → Option Json
  | .obj fs, k => fs.foldl (fun acc p => if p.1 = k then some p.2 else acc) none
  | _, _ => none

/-- `x || dflt` on a possibly-`undefined` JSON value. -/
def jsOrJ (x : Option Json) (dflt : Json) : Json :=
  match x with
  | some v => if jsTruthy v then v else dflt
  | none => dflt

/-- `targets[i] || '—'`: array and string indexing, `'—'` for a falsy or
missing element, template-literal stringification of the element. -/
def jsIndex : Json → Nat → Option Json
  | .arr xs, i => xs[i]?
  | .str s, i => (s.data[i]?).map (fun c => Json.str (String.mk [c]))
  | _, _ => none

/-- One rendered target cell. -/
def targetDisplay (targetsJ : Json) (i : Nat) : String :=
  match jsIndex targetsJ i with
  | some v => if jsTruthy v then jsToString v else "—"
  | none => "—"

/-- One row of the scenarios table. -/
structure ScenarioRow where
  side : String
  entry : String
  stop : String
  t1 : String
  t2 : String
  t3 : String
  rowClass : String
deriving DecidableEq

/-- `String.prototype.substring(0, n)` (and `slice(0, n)` on strings). -/
def jsSubstring (s : String) (n : Nat) : String := String.mk (s.data.take n)

/-- The `forEach` body of `updateScenariosTable` for a non-`null` scenario.
`none` models `side.toLowerCase()` thrown on a truthy non-string `side`. -/
def renderRowBody (scenario : Json) : Option ScenarioRow :=
  let sideJ := jsOrJ (getFieldNN scenario "side") (.str "")
  let entryJ := jsOrJ (getFieldNN scenario "entry") (.str "")
  let stopJ := jsOrJ (getFieldNN scenario "stop") (.str "")
  let targetsJ := jsOrJ (getFieldNN scenario "targets") (.arr [])
  match sideJ with
  | .str sideS =>
    some ⟨sideS, jsToString entryJ, jsToString stopJ,
      targetDisplay targetsJ 0, targetDisplay targetsJ 1, targetDisplay targetsJ 2,
      if jsToLower sideS = "long" then "long"
      else if jsToLower sideS = "short" then "short" else ""⟩
  | _ => none

/-- Model of the `forEach` body of `updateScenariosTable` for one scenario.
`none` models a thrown exception: property access on a `null` element, or
`side.toLowerCase()` on a truthy non-string `side`. -/
def renderRow (scenario : Json) : Option ScenarioRow :=
  match scenario with
  | .null => none
  | s => renderRowBody s

/-- Model of `updateScenariosTable` over the (already truncated) scenario
list. -/
def renderRows : List Json → Option (List ScenarioRow)
  | [] => some []
  | s :: rest =>
    match renderRow s with
    | none => none
    | some r =>
      match renderRows rest with
      | none => none
      | some rs => some (r :: rs)

/-- The widget texts produced by a successful `updateResults` pass. -/
structure DisplayData where
  decisionText : String
  confidenceText : String
  reasonText : String
  bannerClass : String
  rows : List ScenarioRow
  supportText : String
  resistanceText : String
deriving DecidableEq

/-- Outcome of `updateResults`: either the catch branch (status
`Parse error`) or the rendered widget data. -/
inductive RenderOutcome where
  | parseError : RenderOutcome
  | ok : DisplayData → RenderOutcome
deriving DecidableEq

/-- The `join(' ') || '—'` rendering of a level list. -/
def levelText (tag : String) (entries : List Json) : String :=
  let s := jsJoin " " (entries.take 2)
  tag ++ (if s = "" then "—" else s)

/-- The body of `updateResults` after a successful `JSON.parse` (field
extraction, defaulting, truncation and widget assembly).  `parseError`
models an exception thrown inside the `try` block: property access on
`null`, a string method on a non-string field, or array iteration over a
truthy non-array field. -/
def renderData (data : Json) : RenderOutcome :=
  match data with
  | .null => .parseError
  | _ =>
    let decisionJ := jsOrJ (getFieldNN data "decision") (.str "WAIT")
    let confidence := parseIntJs (jsOrJ (getFieldNN data "confidence") (.num 0))
    let reasonJ := jsOrJ (getFieldNN data "reason") (.str "")
    match reasonJ with
    | .str reasonS =>
      let reason := jsSubstring reasonS 80
      match jsOrJ (getFieldNN data "scenarios") (.arr []) with
      | .arr xs =>
        let scenarios := xs.take 2
        let levelsJ := jsOrJ (getFieldNN data "levels") (.obj [])
        match decisionJ with
        | .str decisionS =>
          match renderRows scenarios with
          | none => .parseError
          | some rows =>
            match jsOrJ (getFieldNN levelsJ "support") (.arr []) with
            | .arr ss =>
              match jsOrJ (getFieldNN levelsJ "resistance") (.arr []) with
              | .arr rs =>
                .ok ⟨jsToUpper decisionS,
                  (match confidence with
                   | some n => toString n
                   | none => "NaN"),
                  (if reason = "" then "—" else reason),
                  (if jsToLower decisionS = "long" then "long"
                   else if jsToLower decisionS = "short" then "short" else "wait"),
                  rows,
                  levelText "S " ss,
                  levelText "R " rs⟩
              | _ => .parseError
            | _ => .parseError
        | _ => .parseError
      | _ => .parseError
    | _ => .parseError

/-- Model of `SnapScalpRenderer.updateResults`. -/
def updateResults (analysisText : String) : RenderOutcome :=
  match jsonParse analysisText with
  | none => .parseError
  | some data => renderData data

/-! ## `SnapScalpMain`: capture, start/stop, and the analysis loop

The OS screenshot and the `sharp` crop/encode are external; their outcomes
enter the model as `Except`-valued arguments.  The display scale factor is
modelled as an integer (the claims under verification do not depend on
fractional scaling), and the base64 step as the identity on the opaque
cropped buffer. -/

/-- The capture region (`this.captureArea`). -/
structure Region where
  x : Int
  y : Int
  width : Int
  height : Int
deriving DecidableEq

/-- The crop rectangle handed to `sharp`. -/
structure CropArea where
  left : Int
  top : Int
  width : Int
  height : Int
deriving DecidableEq

/-- Result object of `captureScreenshot`: `{success:true, image, cropArea}`
or `{success:false, error}`. -/
inductive CaptureResult where
  | ok : String → CropArea → CaptureResult
  | fail : String → CaptureResult
deriving DecidableEq

/-- The `success` field of a `CaptureResult`. -/
def CaptureResult.success : CaptureResult → Bool
  | .ok _ _ => true
  | .fail _ => false

/-- Model of `SnapScalpMain.captureScreenshot`.  The missing-region check
throws outside the `try` block; every failure of the external screenshot or
crop steps is caught and converted into `{success:false, error}`. -/
def captureScreenshot (area : Option Region) (scaleFactor : Int)
    (scrRes : Except String String) (cropRes : Except String String) :
    Except String CaptureResult :=
  match area with
  | none => .error "No capture area set"
  | some a =>
    match scrRes with
    | .error e => .ok (.fail e)
    | .ok _img =>
      let sf := if scaleFactor = 0 then 1 else scaleFactor
      let ca : CropArea := ⟨a.x * sf, a.y * sf, a.width * sf, a.height * sf⟩
      match cropRes with
      | .error e => .ok (.fail e)
      | .ok buf => .ok (.ok buf ca)

/-- The application configuration (`this.config`). -/
structure AppConfig where
  provider : String
  openaiKey : String
  claudeKey : String
  perplexityKey : String
deriving DecidableEq

/-- `this.config.apiKeys[this.config.provider]`, with an unknown provider
name reading as `undefined` (modelled by the empty, falsy, string). -/
def AppConfig.activeKey (c : AppConfig) : String :=
  match c.provider with
  | "openai" => c.openaiKey
  | "claude" => c.claudeKey
  | "perplexity" => c.perplexityKey
  | _ => ""

/-- The mutable loop state of `SnapScalpMain` relevant to the claims. -/
structure MainState where
  config : AppConfig
  captureArea : Option Region
  isAnalyzing : Bool
  analysisInterval : Bool
deriving DecidableEq

/-- Timer registrations performed by `startAnalysis`. -/
inductive TimerEv where
  | setTimeoutProbe : Nat → TimerEv
  | setIntervalLoop : Nat → TimerEv
deriving DecidableEq

/-- Model of `SnapScalpMain.startAnalysis`: missing-credential check first,
then missing-region check, both throwing before any mutation; on success the
running flag is set and the probe timeout plus the 30-second interval are
scheduled. -/
def startAnalysis (st : MainState) : MainState × List TimerEv × Option String :=
  if st.config.activeKey = "" then
    (st, [], some ("Missing API key for " ++ st.config.provider))
  else if st.captureArea.isNone then
    (st, [], some "No capture area set")
  else
    ({st with isAnalyzing := true, analysisInterval := true},
     [.setTimeoutProbe 2000, .setIntervalLoop 30000], none)

/-- Model of `SnapScalpMain.stopAnalysis`. -/
def stopAnalysis (st : MainState) : MainState :=
  {st with isAnalyzing := false, analysisInterval := false}

/-- Observable actions of one timer callback. -/
inductive CycleEv where
  | statusUpdate : String → CycleEv
  | captureAttempt : CycleEv
  | analyzeAttempt : String → CycleEv
  | analysisResult : String → String → CycleEv
deriving DecidableEq

/-- Model of the recurring `setInterval` callback of the analysis loop.
`anaRes` is the outcome of the in-cycle `analyzeChart` call.  The callback
returns immediately when the running flag is down; otherwise the whole body
runs inside a `try` whose `catch` emits the generic `Analysis error`
status.  The callback never mutates the loop state, which is returned
unchanged. -/
def intervalTick (st : MainState) (scaleFactor : Int)
    (scrRes cropRes : Except String String) (anaRes : Except String String)
    (timeString : String) : MainState × List CycleEv :=
  if !st.isAnalyzing then (st, [])
  else
    let evs := [CycleEv.statusUpdate "Capturing", CycleEv.captureAttempt]
    match captureScreenshot st.captureArea scaleFactor scrRes cropRes with
    | .error _ => (st, evs ++ [.statusUpdate "Analysis error"])
    | .ok (.fail _err) => (st, evs ++ [.statusUpdate "Capture failed"])
    | .ok (.ok img _) =>
      let evs := evs ++ [CycleEv.statusUpdate "Analyzing", CycleEv.analyzeAttempt img]
      match anaRes with
      | .error _ => (st, evs ++ [.statusUpdate "Analysis error"])
      | .ok analysis =>
        (st, evs ++ [.analysisResult analysis img,
          .statusUpdate ("Updated at " ++ timeString)])

/-- Model of the one-shot `setTimeout` probe callback scheduled by
`startAnalysis` (same structure as the recurring callback, with the
`(immediate)` status strings). -/
def probeTick (st : MainState) (scaleFactor : Int)
    (scrRes cropRes : Except String String) (anaRes : Except String String) :
    MainState × List CycleEv :=
  if !st.isAnalyzing then (st, [])
  else
    let evs := [CycleEv.statusUpdate "Capturing (immediate)", CycleEv.captureAttempt]
    match captureScreenshot st.captureArea scaleFactor scrRes cropRes with
    | .error _ => (st, evs ++ [.statusUpdate "Immediate analysis error"])
    | .ok (.fail _err) => (st, evs ++ [.statusUpdate "Immediate capture failed"])
    | .ok (.ok img _) =>
      let evs := evs ++ [CycleEv.statusUpdate "Analyzing (immediate)", CycleEv.analyzeAttempt img]
      match anaRes with
      | .error _ => (st, evs ++ [.statusUpdate "Immediate analysis error"])
      | .ok analysis =>
        (st, evs ++ [.analysisResult analysis img, .statusUpdate "Updated (immediate)"])

/-! ## `LLMService`: provider setup, switching, and `analyzeChart` -/

/-- The LangChain model object constructed by `setupProvider`. -/
inductive ProviderModel where
  | chatOpenAI : (apiKey : String) → (modelName : String) → (baseURL : Option String) → ProviderModel
  | chatAnthropic : (apiKey : String) → (modelName : String) → ProviderModel
deriving DecidableEq

/-- The mutable state of `LLMService`. -/
structure LLMState where
  currentProvider : String
  openaiKey : String
  claudeKey : String
  perplexityKey : String
  model : Option ProviderModel
deriving DecidableEq

/-- `this.apiKeys[id]` for a provider id. -/
def LLMState.keyFor (st : LLMState) (id : String) : String :=
  match id with
  | "openai" => st.openaiKey
  | "claude" => st.claudeKey
  | "perplexity" => st.perplexityKey
  | _ => ""

/-- Model of `LLMService.setupProvider`: switch on the lower-cased current
provider; a missing key (or unknown provider) throws before `this.model` is
assigned, so an error leaves the model untouched. -/
def setupProvider (st : LLMState) : LLMState × Option String :=
  match jsToLower st.currentProvider with
  | "openai" =>
    if st.openaiKey = "" then (st, some "OpenAI API key not configured")
    else ({st with model := some (.chatOpenAI st.openaiKey "gpt-5-chat-latest" none)}, none)
  | "claude" =>
    if st.claudeKey = "" then (st, some "Claude API key not configured")
    else ({st with model := some (.chatAnthropic st.claudeKey "claude-3-5-sonnet-20241022")}, none)
  | "perplexity" =>
    if st.perplexityKey = "" then (st, some "Perplexity API key not configured")
    else ({st with model := some (.chatOpenAI st.perplexityKey "sonar-pro"
      (some "https://api.perplexity.ai"))}, none)
  | _ => (st, some ("Unsupported LLM provider: " ++ st.currentProvider))

/-- Model of `LLMService.switchProvider`: nothing happens when the id equals
the current provider; otherwise the current provider is reassigned first and
`setupProvider` runs (so a setup failure leaves the reassigned id in place —
the thrown error propagates with the state as returned). -/
def switchProvider (st : LLMState) (provider : String) : LLMState × Option String :=
  if provider = st.currentProvider then (st, none)
  else setupProvider {st with currentProvider := provider}

/-- Outcome object of the `switch-llm-provider` IPC handler. -/
inductive SwitchOutcome where
  | success : String → SwitchOutcome
  | failure : String → SwitchOutcome
deriving DecidableEq

/-- Model of the `switch-llm-provider` IPC handler in `setupIpcHandlers`:
the config's provider field is lower-cased and assigned before
`switchProvider` runs, and a thrown error is converted into a
`{success:false}` result without restoring the config. -/
def handleSwitchProvider (cfg : AppConfig) (svc : LLMState) (provider : String) :
    AppConfig × LLMState × SwitchOutcome :=
  let cfg' := {cfg with provider := jsToLower provider}
  match switchProvider svc cfg'.provider with
  | (svc', none) => (cfg', svc', .success cfg'.provider)
  | (svc', some e) => (cfg', svc', .failure e)

/-- The analysis prompt of `getAnalysisPrompt` (verbatim). -/
def getAnalysisPrompt : String :=
  "You are a trading assistant for intraday scalpers. Analyze this chart screenshot that may contain labels like HH LH HL LL BOS ChoCH PDH supply demand premium discount and price levels.\n\nGoal: Return the most actionable decision now using only what is visible. Be concise. No disclaimers.\n\nRules:\n• Use exact numbers visible on chart when possible\n• If numbers not fully visible give nearest integer\n• Prefer 1 or 3 minute context if both visible\n• Keep total characters under 420\n• Return ONLY valid JSON matching the schema\n• Use arrays even for single scenario\n\nRequired JSON Schema:\n\x7b\n  \"decision\": \"Long\" | \"Short\" | \"Wait\",\n  \"confidence\": 1-100,\n  \"reason\": \"string (max 80 chars)\",\n  \"scenarios\": [\n    \x7b\n      \"side\": \"Long\" | \"Short\",\n      \"entry\": \"string\",\n      \"stop\": \"string\", \n      \"targets\": [\"string\"],\n      \"conditions\": \"string (max 60 chars)\",\n      \"invalidate\": \"string (max 40 chars)\"\n    \x7d\n  ],\n  \"levels\": \x7b\n    \"support\": [\"string\"],\n    \"resistance\": [\"string\"]\x7d\n\x7d\n\nAnalyze and reply with JSON only."

/-- The disclaimer appended to the prompt for text-only providers. -/
def textOnlyNote : String :=
  "\n\nNote: Image analysis not available with current provider. Please provide text-based market analysis."

/-- The fixed `JSON.stringify` output returned for text-only providers. -/
def textOnlyFallback : String :=
  "\x7b\"decision\":\"Wait\",\"confidence\":50,\"reason\":\"Text-only analysis - image vision not supported\",\"scenarios\":[],\"levels\":\x7b\"support\":[],\"resistance\":[]\x7d\x7d"

/-- A model invocation performed by `analyzeChart`. -/
inductive InvokeEv where
  | visionInvoke : (promptText : String) → (imageDataUrl : String) → InvokeEv
  | textInvoke : (promptText : String) → InvokeEv
deriving DecidableEq

/-- Model of `LLMService.analyzeChart`.  `invokeRes` is the outcome of the
external model invocation.  Vision providers (`openai`, `claude`) send the
image and post-process the response through `extractJsonFromResponse`; every
other provider sends a text-only prompt, and the invocation's successful
response is discarded in favour of the fixed fallback string.  A rejected
invocation is re-thrown tagged with the provider name. -/
def analyzeChart (st : LLMState) (imageBase64 : String)
    (invokeRes : Except String String) : List InvokeEv × Except String String :=
  match st.model with
  | none => ([], .error "LLM service not initialized")
  | some _ =>
    let prompt := getAnalysisPrompt
    if st.currentProvider = "openai" || st.currentProvider = "claude" then
      let ev := InvokeEv.visionInvoke prompt ("data:image/png;base64," ++ imageBase64)
      match invokeRes with
      | .error e => ([ev], .error ("Analysis failed with " ++ st.currentProvider ++ ": " ++ e))
      | .ok content => ([ev], .ok (extractJsonFromResponse content))
    else
      let ev := InvokeEv.textInvoke (prompt ++ textOnlyNote)
      match invokeRes with
      | .error e => ([ev], .error ("Analysis failed with " ++ st.currentProvider ++ ": " ++ e))
      | .ok _ => ([ev], .ok textOnlyFallback)

/-! # Theorems -/

/-! ## C1: `startAnalysis` preconditions -/

/-- C1: `startAnalysis` fails when no capture region is set (whatever the
credential state), fails when the active provider's credential is absent
(whatever the region state), succeeds — setting the running flag and
scheduling the probe timeout and the 30 s interval — exactly when both are
present, and on failure leaves the state unchanged with no timer
scheduled. -/
theorem c1_startAnalysis_preconditions (st : MainState) :
    (st.captureArea = none → (startAnalysis st).2.2.isSome) ∧
    (st.config.activeKey = "" → (startAnalysis st).2.2.isSome) ∧
    (st.config.activeKey ≠ "" → st.captureArea ≠ none →
      startAnalysis st =
        ({st with isAnalyzing := true, analysisInterval := true},
         [.setTimeoutProbe 2000, .setIntervalLoop 30000], none)) ∧
    ((startAnalysis st).2.2.isSome →
      (startAnalysis st).1 = st ∧ (startAnalysis st).2.1 = []) := by
  by_cases hk : st.config.activeKey = "" <;>
    by_cases ha : st.captureArea = none <;>
      simp [startAnalysis, hk, ha, Option.isNone_iff_eq_none]

/-- Witness for C1 at concrete states: a missing region makes `startAnalysis`
fail, and a state with both a key and a region starts the loop. -/
theorem c1_startAnalysis_preconditions_witness :
    (startAnalysis ⟨⟨"openai", "sk", "", ""⟩, none, false, false⟩).2.2.isSome ∧
    startAnalysis ⟨⟨"openai", "sk", "", ""⟩, some ⟨1, 2, 30, 40⟩, false, false⟩ =
      (⟨⟨"openai", "sk", "", ""⟩, some ⟨1, 2, 30, 40⟩, true, true⟩,
       [.setTimeoutProbe 2000, .setIntervalLoop 30000], none) :=
  ⟨(c1_startAnalysis_preconditions _).1 rfl,
   (c1_startAnalysis_preconditions _).2.2.1 (by decide) (by decide)⟩

/-! ## C5: per-cycle errors are contained -/

/-- C5: in a running loop, a cycle whose capture step throws, or whose
analyze step rejects, leaves the loop state untouched (running flag still
true, interval intact), publishes nothing, and ends with the generic
`Analysis error` status; the callback itself is total, so nothing
propagates to the caller of `startAnalysis`. -/
theorem c5_intervalTick_error_contained (st : MainState) (sf : Int)
    (scr crop ana : Except String String) (ts : String)
    (hrun : st.isAnalyzing = true) :
    (intervalTick st sf scr crop ana ts).1 = st ∧
    (((∃ e, captureScreenshot st.captureArea sf scr crop = .error e) ∨
      (∃ img ca e, captureScreenshot st.captureArea sf scr crop = .ok (.ok img ca) ∧
        ana = .error e)) →
      (intervalTick st sf scr crop ana ts).2.getLast? =
          some (.statusUpdate "Analysis error") ∧
      ∀ a i, CycleEv.analysisResult a i ∉ (intervalTick st sf scr crop ana ts).2) := by
  unfold intervalTick
  rw [hrun]
  rcases hcap : captureScreenshot st.captureArea sf scr crop with e | cr
  · simp [hcap]
  · rcases cr with ⟨img, ca⟩ | err
    · rcases ana with e | analysis <;> simp [hcap]
    · simp [hcap]

/-- Witness for C5 at a concrete running state whose analyze step rejects. -/
theorem c5_intervalTick_error_contained_witness :
    (intervalTick ⟨⟨"openai", "sk", "", ""⟩, some ⟨1, 2, 30, 40⟩, true, true⟩ 1
        (.ok "img") (.ok "buf") (.error "boom") "12:00:00").1 =
      ⟨⟨"openai", "sk", "", ""⟩, some ⟨1, 2, 30, 40⟩, true, true⟩ ∧
    (intervalTick ⟨⟨"openai", "sk", "", ""⟩, some ⟨1, 2, 30, 40⟩, true, true⟩ 1
        (.ok "img") (.ok "buf") (.error "boom") "12:00:00").2.getLast? =
      some (.statusUpdate "Analysis error") := by
  have h := c5_intervalTick_error_contained
    ⟨⟨"openai", "sk", "", ""⟩, some ⟨1, 2, 30, 40⟩, true, true⟩ 1
    (.ok "img") (.ok "buf") (.error "boom") "12:00:00" rfl
  exact ⟨h.1, (h.2 (Or.inr ⟨"buf", ⟨1, 2, 30, 40⟩, "boom", rfl, rfl⟩)).1⟩

/-! ## C6: callbacks after stop are skipped entirely -/

/-- C6: when the running flag is down (stop ran after scheduling), both the
probe callback and the recurring callback return immediately: no status is
emitted, no capture or provider invocation is attempted, nothing is
published, and the state is untouched. -/
theorem c6_ticks_skip_when_stopped (st : MainState) (sf : Int)
    (scr crop ana : Except String String) (ts : String)
    (hstopped : st.isAnalyzing = false) :
    intervalTick st sf scr crop ana ts = (st, []) ∧
    probeTick st sf scr crop ana = (st, []) := by
  constructor <;> simp [intervalTick, probeTick, hstopped]

/-- Witness for C6 at a concrete stopped state. -/
theorem c6_ticks_skip_when_stopped_witness :
    intervalTick ⟨⟨"openai", "sk", "", ""⟩, some ⟨1, 2, 30, 40⟩, false, false⟩ 1
        (.ok "img") (.ok "buf") (.ok "analysis") "12:00:00" =
      (⟨⟨"openai", "sk", "", ""⟩, some ⟨1, 2, 30, 40⟩, false, false⟩, []) ∧
    probeTick ⟨⟨"openai", "sk", "", ""⟩, some ⟨1, 2, 30, 40⟩, false, false⟩ 1
        (.ok "img") (.ok "buf") (.ok "analysis") =
      (⟨⟨"openai", "sk", "", ""⟩, some ⟨1, 2, 30, 40⟩, false, false⟩, []) :=
  c6_ticks_skip_when_stopped _ _ _ _ _ _ rfl

/-! ## C8: `captureScreenshot` error handling -/

/-- C8: with no region configured, `captureScreenshot` throws the
missing-region error (outside its `try` block); with a region configured it
always resolves to a `CaptureResult`, converting any screenshot or
crop/encode failure into `{success:false, error}` instead of throwing. -/
theorem c8_captureScreenshot_error_handling (area : Option Region) (sf : Int)
    (scr crop : Except String String) :
    (area = none → captureScreenshot area sf scr crop = .error "No capture area set") ∧
    (area.isSome → ∃ r, captureScreenshot area sf scr crop = .ok r) ∧
    (∀ a e, area = some a → scr = .error e →
      captureScreenshot area sf scr crop = .ok (.fail e)) ∧
    (∀ a i e, area = some a → scr = .ok i → crop = .error e →
      captureScreenshot area sf scr crop = .ok (.fail e)) := by
  rcases area with _ | a
  · simp [captureScreenshot]
  · rcases scr with e | i <;> rcases crop with e' | b <;> simp [captureScreenshot]

/-- Witness for C8: no region throws; a crop failure with a region set is
converted into a failed `CaptureResult`. -/
theorem c8_captureScreenshot_error_handling_witness :
    captureScreenshot none 2 (.ok "img") (.ok "buf") = .error "No capture area set" ∧
    captureScreenshot (some ⟨1, 2, 30, 40⟩) 2 (.ok "img") (.error "crop oops") =
      .ok (.fail "crop oops") :=
  ⟨(c8_captureScreenshot_error_handling none 2 (.ok "img") (.ok "buf")).1 rfl,
   (c8_captureScreenshot_error_handling (some ⟨1, 2, 30, 40⟩) 2 (.ok "img")
       (.error "crop oops")).2.2.2 ⟨1, 2, 30, 40⟩ "img" "crop oops" rfl rfl rfl⟩

/-! ## C7: `switchProvider` (corrected) -/

/-- Counterexample to C7 as stated: with the current provider set to
`openai` and no `openai` credential configured (a state reachable because
initialization catches the setup failure and keeps running), switching to
the already-current id succeeds as a no-op instead of failing with a
missing-credential error. -/
theorem c7_switchProvider_counterexample :
    switchProvider ⟨"openai", "", "", "", none⟩ "openai" =
      (⟨"openai", "", "", "", none⟩, none) ∧
    LLMState.keyFor ⟨"openai", "", "", "", none⟩ "openai" = "" := by
  constructor <;> rfl

/-- C7 (amended): `switchProvider(id)` is an explicit no-op that succeeds
whenever `id` equals the currently active provider id, regardless of
credential state; only for a different id does it re-resolve credentials,
failing (with the provider-specific missing-key error, after having already
reassigned the current provider id) when no credential is configured for
`id`, and succeeding with a freshly configured model when one is. -/
theorem c7_switchProvider_spec (st : LLMState) (id : String) :
    (id = st.currentProvider → switchProvider st id = (st, none)) ∧
    (id ≠ st.currentProvider →
      (id = "openai" ∨ id = "claude" ∨ id = "perplexity") →
      st.keyFor id = "" →
      (switchProvider st id).2.isSome ∧
      (switchProvider st id).1 = {st with currentProvider := id}) ∧
    (id ≠ st.currentProvider →
      (id = "openai" ∨ id = "claude" ∨ id = "perplexity") →
      st.keyFor id ≠ "" →
      (switchProvider st id).2 = none ∧
      (switchProvider st id).1.currentProvider = id ∧
      (switchProvider st id).1.model.isSome) := by
  refine ⟨fun h => by simp [switchProvider, h], ?_, ?_⟩ <;>
    rintro hne (rfl | rfl | rfl) hkey <;>
      simp_all [switchProvider, setupProvider, LLMState.keyFor, jsToLower, asciiLower]

/-- Witness for C7 (amended): the no-op clause at a credential-less state,
and a failing switch to a different provider with no key. -/
theorem c7_switchProvider_spec_witness :
    switchProvider ⟨"claude", "", "", "", none⟩ "claude" =
      (⟨"claude", "", "", "", none⟩, none) ∧
    (switchProvider ⟨"openai", "sk", "", "", some (.chatOpenAI "sk" "gpt-5-chat-latest" none)⟩
        "claude").2.isSome ∧
    (switchProvider ⟨"openai", "sk", "", "", some (.chatOpenAI "sk" "gpt-5-chat-latest" none)⟩
        "claude").1 =
      ⟨"claude", "sk", "", "", some (.chatOpenAI "sk" "gpt-5-chat-latest" none)⟩ := by
  refine ⟨(c7_switchProvider_spec ⟨"claude", "", "", "", none⟩ "claude").1 rfl, ?_, ?_⟩
  · exact ((c7_switchProvider_spec
      ⟨"openai", "sk", "", "", some (.chatOpenAI "sk" "gpt-5-chat-latest" none)⟩
      "claude").2.1 (by decide) (Or.inr (Or.inl rfl)) rfl).1
  · exact ((c7_switchProvider_spec
      ⟨"openai", "sk", "", "", some (.chatOpenAI "sk" "gpt-5-chat-latest" none)⟩
      "claude").2.1 (by decide) (Or.inr (Or.inl rfl)) rfl).2

/-! ## C9: text-only provider returns the fixed payload -/

/-- C9: with the `perplexity` provider active and the service initialized,
`analyzeChart` invokes the model with the text-only prompt (the analysis
prompt plus the no-image disclaimer) and then discards whatever text the
model returned, producing the fixed payload — decision `Wait`, confidence
`50`, the text-only reason, empty scenarios and empty levels — for every
image input and every returned text. -/
theorem c9_analyzeChart_text_only (st : LLMState) (img t : String)
    (hp : st.currentProvider = "perplexity") (hm : st.model.isSome) :
    analyzeChart st img (.ok t) =
      ([.textInvoke (getAnalysisPrompt ++ textOnlyNote)], .ok textOnlyFallback) ∧
    (∀ t' img', analyzeChart st img (.ok t) = analyzeChart st img' (.ok t')) ∧
    jsonParse textOnlyFallback =
      some (.obj [("decision", .str "Wait"), ("confidence", .num 50),
        ("reason", .str "Text-only analysis - image vision not supported"),
        ("scenarios", .arr []),
        ("levels", .obj [("support", .arr []), ("resistance", .arr [])])]) := by
  obtain ⟨m, hm'⟩ := Option.isSome_iff_exists.mp hm
  refine ⟨?_, ?_, rfl⟩
  · simp [analyzeChart, hm', hp]
  · intro t' img'
    simp [analyzeChart, hm', hp]

/-- Witness for C9 at a concrete initialized perplexity state. -/
theorem c9_analyzeChart_text_only_witness :
    analyzeChart ⟨"perplexity", "", "", "pk", some (.chatOpenAI "pk" "sonar-pro"
        (some "https://api.perplexity.ai"))⟩ "IMAGEDATA"
      (.ok "Here is my market analysis in prose.") =
      ([.textInvoke (getAnalysisPrompt ++ textOnlyNote)], .ok textOnlyFallback) :=
  (c9_analyzeChart_text_only ⟨"perplexity", "", "", "pk", some (.chatOpenAI "pk" "sonar-pro"
      (some "https://api.perplexity.ai"))⟩ "IMAGEDATA"
    "Here is my market analysis in prose." rfl rfl).1

/-! ## C10: failed provider switch leaves a mixed state -/

/-- C10: when the `switch-llm-provider` handler is called with a new
provider id (different from the service's current one) whose credential is
missing, the handler reports failure but the config's provider field and
the service's current provider id are already reassigned to the new id,
while the service's model object still belongs to the previous provider —
a mixed state rather than a rollback. -/
theorem c10_handleSwitchProvider_mixed_state (cfg : AppConfig) (svc : LLMState)
    (p : String)
    (hdiff : jsToLower p ≠ svc.currentProvider)
    (hknown : jsToLower p = "openai" ∨ jsToLower p = "claude" ∨ jsToLower p = "perplexity")
    (hkey : svc.keyFor (jsToLower p) = "") :
    (handleSwitchProvider cfg svc p).1.provider = jsToLower p ∧
    (handleSwitchProvider cfg svc p).2.1.currentProvider = jsToLower p ∧
    (handleSwitchProvider cfg svc p).2.1.model = svc.model ∧
    ∃ e, (handleSwitchProvider cfg svc p).2.2 = .failure e := by
  have h := (c7_switchProvider_spec svc (jsToLower p)).2.1 hdiff hknown hkey
  obtain ⟨e, he⟩ := Option.isSome_iff_exists.mp h.1
  have hsw : switchProvider svc (jsToLower p) =
      ({svc with currentProvider := jsToLower p}, some e) := by
    have h2 := h.2
    rcases hx : switchProvider svc (jsToLower p) with ⟨svc', err⟩
    rw [hx] at he h2
    simp only at he h2
    rw [he, h2]
  refine ⟨?_, ?_, ?_, e, ?_⟩ <;> simp [handleSwitchProvider, hsw]

/-- Witness for C10: switching from `openai` to `claude` with no claude key
configured leaves config and service pointing at `claude` while the model is
still the openai one. -/
theorem c10_handleSwitchProvider_mixed_state_witness :
    (handleSwitchProvider ⟨"openai", "sk", "", ""⟩
        ⟨"openai", "sk", "", "", some (.chatOpenAI "sk" "gpt-5-chat-latest" none)⟩
        "Claude").1.provider = "claude" ∧
    (handleSwitchProvider ⟨"openai", "sk", "", ""⟩
        ⟨"openai", "sk", "", "", some (.chatOpenAI "sk" "gpt-5-chat-latest" none)⟩
        "Claude").2.1.currentProvider = "claude" ∧
    (handleSwitchProvider ⟨"openai", "sk", "", ""⟩
        ⟨"openai", "sk", "", "", some (.chatOpenAI "sk" "gpt-5-chat-latest" none)⟩
        "Claude").2.1.model = some (.chatOpenAI "sk" "gpt-5-chat-latest" none) := by
  have h := c10_handleSwitchProvider_mixed_state ⟨"openai", "sk", "", ""⟩
    ⟨"openai", "sk", "", "", some (.chatOpenAI "sk" "gpt-5-chat-latest" none)⟩
    "Claude" (by decide) (Or.inr (Or.inl (by decide))) (by decide)
  have hlow : jsToLower "Claude" = "claude" := by decide
  rw [hlow] at h
  exact ⟨h.1, h.2.1, h.2.2.1⟩

/-! ## C2: `normalize` fallback behaviour (corrected) -/

/-- Counterexample to C2 as stated: the validation step only checks that
the cleaned content parses as *some* JSON value, so the non-structured
input `42` (no top-level object) is passed through verbatim instead of
being replaced by the fallback payload; and empty input short-circuits to
the bare `"{}"` string, which also is not the fallback payload. -/
theorem c2_extractJson_counterexample :
    extractJsonFromResponse "42" = "42" ∧
    jsonParse "42" = some (.num 42) ∧
    extractJsonFromResponse "42" ≠ jsonFallback ∧
    extractJsonFromResponse "" = "\x7b\x7d" ∧
    extractJsonFromResponse "" ≠ jsonFallback :=
  ⟨rfl, rfl, by decide, rfl, by decide⟩

/-- C2 (amended): `extractJsonFromResponse` never fails outward and always
produces parseable payload text; but the fallback payload (decision `Wait`,
confidence `50`, parsing-error reason, empty scenarios and levels) is
substituted exactly when the *cleaned* content fails to parse as JSON and
the input is non-empty: empty input yields the bare `"{}"` string, and any
cleaned content that parses as *any* JSON value — a top-level object or
not — is returned unchanged. -/
theorem c2_extractJson_spec (s : String) :
    (∃ v, jsonParse (extractJsonFromResponse s) = some v) ∧
    (s ≠ "" → jsonParse (cleanContent s) = none →
      extractJsonFromResponse s = jsonFallback) ∧
    (∀ v, jsonParse (cleanContent s) = some v → s ≠ "" →
      extractJsonFromResponse s = cleanContent s) := by
  by_cases hs : s = ""
  · subst hs
    exact ⟨⟨.obj [], rfl⟩, fun h => absurd rfl h, fun v _ h => absurd rfl h⟩
  · rcases h : jsonParse (cleanContent s) with _ | v
    · have hex : extractJsonFromResponse s = jsonFallback := by
        simp [extractJsonFromResponse, hs, h]
      refine ⟨⟨.obj [("decision", .str "Wait"), ("confidence", .num 50),
          ("reason", .str "JSON parsing error"), ("scenarios", .arr []),
          ("levels", .obj [("support", .arr []), ("resistance", .arr [])])], ?_⟩,
        fun _ _ => hex, fun v hv _ => absurd hv (by simp)⟩
      rw [hex]
      rfl
    · have hex : extractJsonFromResponse s = cleanContent s := by
        simp [extractJsonFromResponse, hs, h]
      refine ⟨⟨v, ?_⟩, fun _ hnone => ?_, fun v' _ _ => ?_⟩
      · rw [hex, h]
      · cases hnone
      · rw [hex]

/-- Witness for C2 (amended) at concrete inputs: malformed non-empty text is
replaced by the fallback string, and the result of `extractJsonFromResponse`
parses for a malformed input. -/
theorem c2_extractJson_spec_witness :
    extractJsonFromResponse "not json at all" = jsonFallback ∧
    (∃ v, jsonParse (extractJsonFromResponse "not json at all") = some v) :=
  ⟨(c2_extractJson_spec "not json at all").2.1 (by decide) rfl,
   (c2_extractJson_spec "not json at all").1⟩

/-! ## C4: renderer defaulting and clamping (corrected) -/

/-- For a non-`null` scenario element, `renderRow` is its body. -/
theorem c4aux_renderRow_eq (a : Json) (h : a ≠ Json.null) :
    renderRow a = renderRowBody a := by
  cases a <;> first | exact absurd rfl h | rfl

/-- Target cells read only the first three entries of the target list. -/
theorem c4aux_targetDisplay_take (ts : List Json) (j : Nat) (hj : j < 3) :
    targetDisplay (.arr ts) j = targetDisplay (.arr (ts.take 3)) j := by
  simp [targetDisplay, jsIndex, List.getElem?_take_of_lt hj]

/-- A scenario whose `side` field is absent or a string renders to a row,
and the row's target cells come from the first three targets. -/
theorem c4aux_renderRowBody_some (a : Json)
    (hside : getFieldNN a "side" = none ∨ ∃ t, getFieldNN a "side" = some (.str t)) :
    ∃ r0, renderRowBody a = some r0 ∧
      ∀ ts, getFieldNN a "targets" = some (.arr ts) →
        r0.t1 = targetDisplay (.arr (ts.take 3)) 0 ∧
        r0.t2 = targetDisplay (.arr (ts.take 3)) 1 ∧
        r0.t3 = targetDisplay (.arr (ts.take 3)) 2 := by
  have hstr : ∃ sideS, jsOrJ (getFieldNN a "side") (.str "") = .str sideS := by
    rcases hside with h | ⟨t, h⟩
    · exact ⟨"", by simp [jsOrJ, h]⟩
    · by_cases ht : t = ""
      · exact ⟨"", by simp [jsOrJ, h, jsTruthy, ht]⟩
      · exact ⟨t, by simp [jsOrJ, h, jsTruthy, ht]⟩
  obtain ⟨sideS, hs⟩ := hstr
  refine ⟨⟨sideS, jsToString (jsOrJ (getFieldNN a "entry") (.str "")),
      jsToString (jsOrJ (getFieldNN a "stop") (.str "")),
      targetDisplay (jsOrJ (getFieldNN a "targets") (.arr [])) 0,
      targetDisplay (jsOrJ (getFieldNN a "targets") (.arr [])) 1,
      targetDisplay (jsOrJ (getFieldNN a "targets") (.arr [])) 2,
      if jsToLower sideS = "long" then "long"
      else if jsToLower sideS = "short" then "short" else ""⟩, ?_, ?_⟩
  · rw [renderRowBody, hs]
  · intro ts hts
    have harr : jsOrJ (getFieldNN a "targets") (.arr []) = .arr ts := by
      simp [jsOrJ, hts, jsTruthy]
    rw [harr]
    exact ⟨c4aux_targetDisplay_take ts 0 (by omega),
      c4aux_targetDisplay_take ts 1 (by omega),
      c4aux_targetDisplay_take ts 2 (by omega)⟩

/-- A list of well-typed scenarios renders to a row list of the same
length, each row reading only the first three targets of its scenario. -/
theorem c4aux_renderRows_some (xs : List Json)
    (h : ∀ x ∈ xs, x ≠ Json.null ∧
      (getFieldNN x "side" = none ∨ ∃ t, getFieldNN x "side" = some (.str t))) :
    ∃ rows, renderRows xs = some rows ∧ rows.length = xs.length ∧
      ∀ (i : Nat) (x : Json) (ts : List Json),
        xs[i]? = some x → getFieldNN x "targets" = some (.arr ts) →
        ∃ r, rows[i]? = some r ∧
          (r.t1 = targetDisplay (.arr (ts.take 3)) 0 ∧
           r.t2 = targetDisplay (.arr (ts.take 3)) 1 ∧
           r.t3 = targetDisplay (.arr (ts.take 3)) 2) := by
  induction xs with
  | nil => exact ⟨[], rfl, rfl, fun i x ts hx => by simp at hx⟩
  | cons a as ih =>
    have ha := h a (List.mem_cons_self a as)
    obtain ⟨rows, hrows, hlen, htg⟩ := ih (fun x hx => h x (List.mem_cons_of_mem a hx))
    obtain ⟨r0, hr0, hr0t⟩ := c4aux_renderRowBody_some a ha.2
    refine ⟨r0 :: rows, ?_, by simp [hlen], ?_⟩
    · rw [renderRows, c4aux_renderRow_eq a ha.1, hr0, hrows]
    · intro i x ts hx hts
      cases i with
      | zero =>
        obtain rfl : a = x := by simpa using hx
        exact ⟨r0, by simp, hr0t ts hts⟩
      | succ n =>
        rw [List.getElem?_cons_succ] at hx
        obtain ⟨r, hr, hrt⟩ := htg n x ts hx hts
        exact ⟨r, by simpa using hr, hrt⟩

/-- Counterexample to C4 as stated: a payload whose `confidence` is the
non-numeric string `abc` renders the confidence cell as `NaN` — the
`parseInt` coercion yields `NaN` rather than the claimed default `0`. -/
theorem c4_updateResults_counterexample :
    updateResults "\x7b\"confidence\":\"abc\"\x7d" =
      .ok ⟨"WAIT", "NaN", "—", "wait", [], "S —", "R —"⟩ ∧
    ("NaN" : String) ≠ "0" :=
  ⟨rfl, by decide⟩

/-- C4 (amended): for every successfully parsed payload object whose present
fields are schema-typed (`decision`/`reason` strings, `scenarios` an array
of non-null scenarios with string `side` fields, `levels` an object with
array level lists), rendering succeeds and applies field-level defaulting
and clamping: decision defaults to `WAIT` when absent; `confidence` is
coerced with `parseInt` semantics — an integral number passes through, an
absent value defaults to `0`, but a non-numeric string yields `NaN` (not
`0` as claimed); `reason` is truncated to 80 characters (`—` when absent);
the scenario rows come from the first 2 scenarios only, each row reading
only the first 3 targets; and each level list is truncated to its first 2
entries. -/
theorem c4_renderData_clamping (fs : List (String × Json))
    (hdec : getFieldNN (.obj fs) "decision" = none ∨
      ∃ s, getFieldNN (.obj fs) "decision" = some (.str s))
    (hrea : getFieldNN (.obj fs) "reason" = none ∨
      ∃ s, getFieldNN (.obj fs) "reason" = some (.str s))
    (hsc : getFieldNN (.obj fs) "scenarios" = none ∨
      ∃ xs, getFieldNN (.obj fs) "scenarios" = some (.arr xs) ∧
        ∀ x ∈ xs, x ≠ Json.null ∧
          (getFieldNN x "side" = none ∨ ∃ t, getFieldNN x "side" = some (.str t)))
    (hlev : getFieldNN (.obj fs) "levels" = none ∨
      ∃ ls, getFieldNN (.obj fs) "levels" = some (.obj ls) ∧
        (getFieldNN (.obj ls) "support" = none ∨
          ∃ ss, getFieldNN (.obj ls) "support" = some (.arr ss)) ∧
        (getFieldNN (.obj ls) "resistance" = none ∨
          ∃ rs, getFieldNN (.obj ls) "resistance" = some (.arr rs))) :
    renderData (.obj fs) ≠ .parseError ∧
    ∀ d, renderData (.obj fs) = .ok d →
      (getFieldNN (.obj fs) "decision" = none → d.decisionText = "WAIT") ∧
      (∀ s, getFieldNN (.obj fs) "decision" = some (.str s) → s ≠ "" →
        d.decisionText = jsToUpper s) ∧
      (getFieldNN (.obj fs) "confidence" = none → d.confidenceText = "0") ∧
      (∀ n, getFieldNN (.obj fs) "confidence" = some (.num n) →
        d.confidenceText = toString n) ∧
      (∀ s, getFieldNN (.obj fs) "confidence" = some (.str s) → s ≠ "" →
        parseIntStr s = none → d.confidenceText = "NaN") ∧
      (∀ s k, getFieldNN (.obj fs) "confidence" = some (.str s) →
        parseIntStr s = some k → d.confidenceText = toString k) ∧
      (getFieldNN (.obj fs) "reason" = none → d.reasonText = "—") ∧
      (∀ s, getFieldNN (.obj fs) "reason" = some (.str s) → s ≠ "" →
        d.reasonText = jsSubstring s 80) ∧
      (getFieldNN (.obj fs) "scenarios" = none → d.rows = []) ∧
      (∀ xs, getFieldNN (.obj fs) "scenarios" = some (.arr xs) →
        d.rows.length = min 2 xs.length ∧
        ∀ (i : Nat) (x : Json) (ts : List Json),
          (xs.take 2)[i]? = some x → getFieldNN x "targets" = some (.arr ts) →
          ∃ r, d.rows[i]? = some r ∧
            (r.t1 = targetDisplay (.arr (ts.take 3)) 0 ∧
             r.t2 = targetDisplay (.arr (ts.take 3)) 1 ∧
             r.t3 = targetDisplay (.arr (ts.take 3)) 2)) ∧
      (getFieldNN (.obj fs) "levels" = none →
        d.supportText = "S —" ∧ d.resistanceText = "R —") ∧
      (∀ ls ss, getFieldNN (.obj fs) "levels" = some (.obj ls) →
        getFieldNN (.obj ls) "support" = some (.arr ss) →
        d.supportText = levelText "S " (ss.take 2)) ∧
      (∀ ls rs, getFieldNN (.obj fs) "levels" = some (.obj rs) →
        getFieldNN (.obj rs) "resistance" = some (.arr ls) →
        d.resistanceText = levelText "R " (ls.take 2)) := by
  -- canonical value of the defaulted decision field
  obtain ⟨ds0, hds0, hds0none, hds0some⟩ :
      ∃ ds0, jsOrJ (getFieldNN (.obj fs) "decision") (.str "WAIT") = .str ds0 ∧
        (getFieldNN (.obj fs) "decision" = none → ds0 = "WAIT") ∧
        (∀ s, getFieldNN (.obj fs) "decision" = some (.str s) → s ≠ "" → ds0 = s) := by
    rcases hdec with h | ⟨s, h⟩
    · refine ⟨"WAIT", by simp [jsOrJ, h], fun _ => rfl, ?_⟩
      intro s hs _
      rw [h] at hs
      cases hs
    · by_cases hs0 : s = ""
      · subst hs0
        refine ⟨"WAIT", by simp [jsOrJ, h, jsTruthy], fun _ => rfl, ?_⟩
        intro s' hs' hne
        rw [h] at hs'
        simp only [Option.some.injEq, Json.str.injEq] at hs'
        exact absurd hs'.symm hne
      · refine ⟨s, by simp [jsOrJ, h, jsTruthy, hs0], ?_, ?_⟩
        · intro hn
          rw [h] at hn
          cases hn
        · intro s' hs' _
          rw [h] at hs'
          simp only [Option.some.injEq, Json.str.injEq] at hs'
          exact hs'
  -- canonical value of the defaulted reason field
  obtain ⟨rs0, hrs0, hrs0none, hrs0some⟩ :
      ∃ rs0, jsOrJ (getFieldNN (.obj fs) "reason") (.str "") = .str rs0 ∧
        (getFieldNN (.obj fs) "reason" = none → rs0 = "") ∧
        (∀ s, getFieldNN (.obj fs) "reason" = some (.str s) → s ≠ "" → rs0 = s) := by
    rcases hrea with h | ⟨s, h⟩
    · refine ⟨"", by simp [jsOrJ, h], fun _ => rfl, ?_⟩
      intro s hs _
      rw [h] at hs
      cases hs
    · by_cases hs0 : s = ""
      · subst hs0
        refine ⟨"", by simp [jsOrJ, h, jsTruthy], fun _ => rfl, ?_⟩
        intro s' hs' hne
        rw [h] at hs'
        simp only [Option.some.injEq, Json.str.injEq] at hs'
        exact absurd hs'.symm hne
      · refine ⟨s, by simp [jsOrJ, h, jsTruthy, hs0], ?_, ?_⟩
        · intro hn
          rw [h] at hn
          cases hn
        · intro s' hs' _
          rw [h] at hs'
          simp only [Option.some.injEq, Json.str.injEq] at hs'
          exact hs'
  -- canonical value of the defaulted scenarios field
  obtain ⟨xs0, hxs0, hxs0none, hxs0some, hxs0typed⟩ :
      ∃ xs0, jsOrJ (getFieldNN (.obj fs) "scenarios") (.arr []) = .arr xs0 ∧
        (getFieldNN (.obj fs) "scenarios" = none → xs0 = []) ∧
        (∀ ys, getFieldNN (.obj fs) "scenarios" = some (.arr ys) → xs0 = ys) ∧
        ∀ x ∈ xs0, x ≠ Json.null ∧
          (getFieldNN x "side" = none ∨ ∃ t, getFieldNN x "side" = some (.str t)) := by
    rcases hsc with h | ⟨ys, hy, hys⟩
    · refine ⟨[], by simp [jsOrJ, h], fun _ => rfl, ?_, by simp⟩
      intro ys hy
      rw [h] at hy
      cases hy
    · refine ⟨ys, by simp [jsOrJ, hy, jsTruthy], ?_, ?_, hys⟩
      · intro hn
        rw [hy] at hn
        cases hn
      · intro ys' hy'
        rw [hy] at hy'
        simp only [Option.some.injEq, Json.arr.injEq] at hy'
        exact hy'
  -- canonical value of the defaulted levels field
  obtain ⟨ls0, hls0, hls0none, hls0some, hls0sup, hls0res⟩ :
      ∃ ls0, jsOrJ (getFieldNN (.obj fs) "levels") (.obj []) = .obj ls0 ∧
        (getFieldNN (.obj fs) "levels" = none → ls0 = []) ∧
        (∀ ls, getFieldNN (.obj fs) "levels" = some (.obj ls) → ls0 = ls) ∧
        (getFieldNN (.obj ls0) "support" = none ∨
          ∃ ss, getFieldNN (.obj ls0) "support" = some (.arr ss)) ∧
        (getFieldNN (.obj ls0) "resistance" = none ∨
          ∃ rs, getFieldNN (.obj ls0) "resistance" = some (.arr rs)) := by
    rcases hlev with h | ⟨ls, hl, hlsup, hlres⟩
    · refine ⟨[], by simp [jsOrJ, h], fun _ => rfl, ?_, by simp [getFieldNN], by simp [getFieldNN]⟩
      intro ls hl
      rw [h] at hl
      cases hl
    · refine ⟨ls, by simp [jsOrJ, hl, jsTruthy], ?_, ?_, hlsup, hlres⟩
      · intro hn
        rw [hl] at hn
        cases hn
      · intro ls' hl'
        rw [hl] at hl'
        simp only [Option.some.injEq, Json.obj.injEq] at hl'
        exact hl'
  -- canonical value of the defaulted support field
  obtain ⟨ss0, hss0, hss0none, hss0some⟩ :
      ∃ ss0, jsOrJ (getFieldNN (.obj ls0) "support") (.arr []) = .arr ss0 ∧
        (getFieldNN (.obj ls0) "support" = none → ss0 = []) ∧
        (∀ ss, getFieldNN (.obj ls0) "support" = some (.arr ss) → ss0 = ss) := by
    rcases hls0sup with h | ⟨ss, h⟩
    · refine ⟨[], by simp [jsOrJ, h], fun _ => rfl, ?_⟩
      intro ss hs
      rw [h] at hs
      cases hs
    · refine ⟨ss, by simp [jsOrJ, h, jsTruthy], ?_, ?_⟩
      · intro hn
        rw [h] at hn
        cases hn
      · intro ss' hs'
        rw [h] at hs'
        simp only [Option.some.injEq, Json.arr.injEq] at hs'
        exact hs'
  -- canonical value of the defaulted resistance field
  obtain ⟨ts0, hts0, hts0none, hts0some⟩ :
      ∃ ts0, jsOrJ (getFieldNN (.obj ls0) "resistance") (.arr []) = .arr ts0 ∧
        (getFieldNN (.obj ls0) "resistance" = none → ts0 = []) ∧
        (∀ ts, getFieldNN (.obj ls0) "resistance" = some (.arr ts) → ts0 = ts) := by
    rcases hls0res with h | ⟨ts, h⟩
    · refine ⟨[], by simp [jsOrJ, h], fun _ => rfl, ?_⟩
      intro ts ht
      rw [h] at ht
      cases ht
    · refine ⟨ts, by simp [jsOrJ, h, jsTruthy], ?_, ?_⟩
      · intro hn
        rw [h] at hn
        cases hn
      · intro ts' ht'
        rw [h] at ht'
        simp only [Option.some.injEq, Json.arr.injEq] at ht'
        exact ht'
  -- the rows
  obtain ⟨rows0, hrows0, hlen0, htg0⟩ := c4aux_renderRows_some (xs0.take 2)
    (fun x hx => hxs0typed x ((List.take_sublist 2 xs0).subset hx))
  -- the full evaluation of renderData
  have hmain : renderData (.obj fs) =
      .ok ⟨jsToUpper ds0,
        (match parseIntJs (jsOrJ (getFieldNN (.obj fs) "confidence") (.num 0)) with
         | some n => toString n
         | none => "NaN"),
        (if jsSubstring rs0 80 = "" then "—" else jsSubstring rs0 80),
        (if jsToLower ds0 = "long" then "long"
         else if jsToLower ds0 = "short" then "short" else "wait"),
        rows0, levelText "S " ss0, levelText "R " ts0⟩ := by
    simp only [renderData]
    rw [hrs0, hds0, hxs0, hls0, hss0, hts0]
    simp only [hrows0]
  refine ⟨?_, ?_⟩
  · rw [hmain]
    intro h
    cases h
  intro d hd
  rw [hmain] at hd
  injection hd with hd
  subst hd
  refine ⟨?_, ?_, ?_, ?_, ?_, ?_, ?_, ?_, ?_, ?_, ?_, ?_, ?_⟩
  · intro h
    simp only [hds0none h]
    decide
  · intro s h hne
    simp only [hds0some s h hne]
  · intro h
    simp [h, jsOrJ, parseIntJs]
    decide
  · intro n h
    by_cases hn : n = 0 <;> simp [h, jsOrJ, jsTruthy, parseIntJs, hn]
  · intro s h hne hnan
    simp [h, jsOrJ, jsTruthy, hne, parseIntJs, jsToString, hnan]
  · intro s k h hk
    have hne : s ≠ "" := by
      intro hs0
      subst hs0
      rw [show parseIntStr "" = none from rfl] at hk
      cases hk
    simp [h, jsOrJ, jsTruthy, hne, parseIntJs, jsToString, hk]
  · intro h
    simp [hrs0none h, jsSubstring]
  · intro s h hne
    have hrs : rs0 = s := hrs0some s h hne
    subst hrs
    have hsub : jsSubstring rs0 80 ≠ "" := by
      intro hq
      apply hne
      have h1 : rs0.data.take 80 = [] := congrArg String.data hq
      have h2 : rs0.data = [] := by
        rcases List.take_eq_nil_iff.mp h1 with h' | h'
        · exact absurd h' (by decide)
        · exact h'
      obtain ⟨dta⟩ := rs0
      simp only at h2
      rw [h2]
    rw [if_neg hsub]
  · intro h
    have := hxs0none h
    subst this
    simp only [List.take_nil] at hrows0
    rw [show renderRows [] = some [] from rfl] at hrows0
    injection hrows0 with hr
    exact hr.symm
  · intro xs h
    have := hxs0some xs h
    subst this
    constructor
    · rw [hlen0]
      simp [List.length_take]
    · exact htg0
  · intro h
    have := hls0none h
    subst this
    have h1 : ss0 = [] := hss0none (by rfl)
    have h2 : ts0 = [] := hts0none (by rfl)
    subst h1
    subst h2
    constructor <;> rfl
  · intro ls ss hl hs
    have := hls0some ls hl
    subst this
    have := hss0some ss hs
    subst this
    simp [levelText, List.take_take]
  · intro ls rs hl hr
    have := hls0some rs hl
    subst this
    have := hts0some ls hr
    subst this
    simp [levelText, List.take_take]

/-- Witness for C4 (amended) at a concrete payload `{"confidence":"abc"}`:
rendering succeeds and the confidence cell shows `NaN`. -/
theorem c4_renderData_clamping_witness :
    renderData (.obj [("confidence", Json.str "abc")]) ≠ .parseError ∧
    (match renderData (.obj [("confidence", Json.str "abc")]) with
     | .ok d => d.confidenceText
     | .parseError => "") = "NaN" := by
  have h := c4_renderData_clamping [("confidence", Json.str "abc")]
    (Or.inl rfl) (Or.inl rfl) (Or.inl rfl) (Or.inl rfl)
  refine ⟨h.1, ?_⟩
  exact (h.2 _ rfl).2.2.2.2.1 "abc" rfl (by decide) rfl

/-! ## C3: fenced-block extraction (corrected)

Helper lemmas about `findSub` (the model of the fence-matching regex) and
the trim helpers, leading to the amended fenced-block theorem. -/

/-- `findSub` misses exactly when the pattern occurs at no position. -/
theorem c3aux_findSub_none_iff (pat : List Char) (hp : pat ≠ []) (s : List Char) :
    findSub pat s = none ↔ ∀ i, pat.isPrefixOf (s.drop i) = false := by
  induction s with
  | nil =>
    constructor
    · intro _ i
      rw [List.drop_nil]
      cases pat with
      | nil => exact absurd rfl hp
      | cons a as => rfl
    · intro _
      rw [findSub, if_neg]
      simp [List.isEmpty_iff, hp]
  | cons c t ih =>
    rw [findSub]
    by_cases hpf : pat.isPrefixOf (c :: t) = true
    · constructor
      · intro h
        rw [if_pos hpf] at h
        cases h
      · intro h
        have h0 := h 0
        rw [List.drop_zero] at h0
        rw [hpf] at h0
        cases h0
    · have hpf' : pat.isPrefixOf (c :: t) = false := by
        revert hpf
        cases pat.isPrefixOf (c :: t) <;> simp
      rw [if_neg hpf, Option.map_eq_none', ih]
      constructor
      · intro h i
        cases i with
        | zero =>
          rw [List.drop_zero]
          exact hpf'
        | succ n =>
          rw [List.drop_succ_cons]
          exact h n
      · intro h i
        have hh := h (i + 1)
        rw [List.drop_succ_cons] at hh
        exact hh

/-- When the pattern heads `w` and occurs nowhere inside `u`, `findSub`
finds it exactly at the boundary. -/
theorem c3aux_findSub_append (pat u w : List Char) (hw : pat.isPrefixOf w = true)
    (hu : ∀ i, i < u.length → pat.isPrefixOf ((u ++ w).drop i) = false) :
    findSub pat (u ++ w) = some u.length := by
  induction u with
  | nil =>
    simp only [List.nil_append, List.length_nil]
    cases w with
    | nil =>
      have hp : pat = [] := by
        cases pat with
        | nil => rfl
        | cons a as => cases hw
      rw [findSub, if_pos]
      simp [hp]
    | cons c r => rw [findSub, if_pos hw]
  | cons c u' ih =>
    rw [List.cons_append, findSub]
    have h0 := hu 0 (by simp)
    rw [List.drop_zero, List.cons_append] at h0
    rw [if_neg (by simp [h0])]
    rw [ih (fun i hi => by
      have hh := hu (i + 1) (by simp only [List.length_cons]; omega)
      rwa [List.cons_append, List.drop_succ_cons] at hh)]
    simp

/-- Character-wise reading of a fence-marker occurrence. -/
theorem c3aux_fence_charwise (t : List Char) :
    fenceChars.isPrefixOf t = true ↔
      (t[0]? = some bq ∧ t[1]? = some bq ∧ t[2]? = some bq) := by
  rcases t with _ | ⟨a, _ | ⟨b, _ | ⟨c, r⟩⟩⟩
  · simp [fenceChars, List.isPrefixOf]
  · simp [fenceChars, List.isPrefixOf]
  · simp [fenceChars, List.isPrefixOf]
  · simp only [fenceChars, List.isPrefixOf, Bool.and_eq_true, beq_iff_eq,
      List.getElem?_cons_zero, List.getElem?_cons_succ, Option.some.injEq]
    constructor
    · rintro ⟨h1, h2, h3, _⟩
      exact ⟨h1.symm, h2.symm, h3.symm⟩
    · rintro ⟨h1, h2, h3⟩
      exact ⟨h1.symm, h2.symm, h3.symm, trivial⟩

/-- A tagged-fence occurrence is a fence occurrence followed by `j`. -/
theorem c3aux_tag_decomp (t : List Char) (h : tagChars.isPrefixOf t = true) :
    fenceChars.isPrefixOf t = true ∧ t[3]? = some 'j' := by
  rw [List.isPrefixOf_iff_prefix] at h
  obtain ⟨r, hr⟩ := h
  subst hr
  constructor
  · rw [List.isPrefixOf_iff_prefix]
    have hform : tagChars ++ r = fenceChars ++ (['j', 's', 'o', 'n'] ++ r) := by
      simp [tagChars, fenceChars]
    rw [hform]
    exact List.prefix_append _ _
  · simp [tagChars]

/-- In the padded body `'\n' :: l ++ '\n' :: fence` of a fenced block whose
content `l` contains no fence marker, the only fence occurrence is the
closing fence at position `l.length + 2`. -/
theorem c3aux_occ_X (l : List Char)
    (hnf : ∀ i, fenceChars.isPrefixOf (l.drop i) = false) (j : Nat)
    (hj : fenceChars.isPrefixOf ((('\n' :: l) ++ ('\n' :: fenceChars)).drop j) = true) :
    j = l.length + 2 := by
  set X := ('\n' :: l) ++ ('\n' :: fenceChars) with hX
  have hXc : X = '\n' :: (l ++ ('\n' :: fenceChars)) := by simp [hX]
  have hXlen : X.length = l.length + 5 := by simp [hX, fenceChars]
  have hA : X[0]? = some '\n' := by rw [hXc]; simp
  have hB : ∀ k, k < l.length → X[k + 1]? = l[k]? := by
    intro k hk
    rw [hXc, List.getElem?_cons_succ, List.getElem?_append_left hk]
  have hC : X[l.length + 1]? = some '\n' := by
    rw [hXc, List.getElem?_cons_succ, List.getElem?_append_right (le_refl _)]
    simp
  have hD : ∀ p, l.length + 5 ≤ p → X[p]? = none := by
    intro p hp
    exact List.getElem?_eq_none (by rw [hXlen]; omega)
  rw [c3aux_fence_charwise] at hj
  obtain ⟨e0, e1, e2⟩ := hj
  rw [List.getElem?_drop] at e0 e1 e2
  rw [Nat.add_zero] at e0
  have hcase : j = 0 ∨ (1 ≤ j ∧ j + 2 ≤ l.length) ∨
      (j + 1 = l.length + 1) ∨ (j + 2 = l.length + 1) ∨ j = l.length + 1 ∨
      j = l.length + 2 ∨ l.length + 3 ≤ j := by omega
  rcases hcase with rfl | ⟨h1, h2⟩ | h | h | rfl | h | h
  · rw [hA] at e0
    exact absurd e0 (by decide)
  · obtain ⟨k, rfl⟩ : ∃ k, j = k + 1 := ⟨j - 1, by omega⟩
    rw [hB k (by omega)] at e0
    rw [show k + 1 + 1 = (k + 1) + 1 from rfl, hB (k + 1) (by omega)] at e1
    have e2' : X[(k + 2) + 1]? = some bq := by
      rw [show (k + 2) + 1 = k + 1 + 2 from by omega]
      exact e2
    rw [hB (k + 2) (by omega)] at e2'
    have hocc : fenceChars.isPrefixOf (l.drop k) = true := by
      rw [c3aux_fence_charwise]
      refine ⟨?_, ?_, ?_⟩ <;> rw [List.getElem?_drop]
      · rw [Nat.add_zero]
        exact e0
      · exact e1
      · exact e2'
    rw [hnf k] at hocc
    cases hocc
  · have e1' : X[l.length + 1]? = some bq := by rw [← h]; exact e1
    rw [hC] at e1'
    exact absurd e1' (by decide)
  · have e2' : X[l.length + 1]? = some bq := by rw [← h]; exact e2
    rw [hC] at e2'
    exact absurd e2' (by decide)
  · rw [hC] at e0
    exact absurd e0 (by decide)
  · exact h
  · have e2' : X[j + 2]? = none := hD (j + 2) (by omega)
    rw [e2'] at e2
    cases e2

/-- The fence-search over the padded body finds the closing fence. -/
theorem c3aux_findSub_X (l : List Char)
    (hnf : ∀ i, fenceChars.isPrefixOf (l.drop i) = false) :
    findSub fenceChars (('\n' :: l) ++ ('\n' :: fenceChars)) = some (l.length + 2) := by
  have hform : ('\n' :: l) ++ ('\n' :: fenceChars) = (('\n' :: l) ++ ['\n']) ++ fenceChars := by
    simp
  have hulen : (('\n' :: l) ++ ['\n']).length = l.length + 2 := by simp
  have hres := c3aux_findSub_append fenceChars (('\n' :: l) ++ ['\n']) fenceChars
    (List.isPrefixOf_iff_prefix.mpr (List.prefix_refl _))
    (fun i hi => by
      rw [← hform]
      cases hocc : fenceChars.isPrefixOf ((('\n' :: l) ++ ('\n' :: fenceChars)).drop i) with
      | false => rfl
      | true =>
        have := c3aux_occ_X l hnf i hocc
        rw [hulen] at hi
        omega)
  rw [hform, hres, hulen]

/-- The tagged-fence pattern occurs nowhere in an untagged fenced block
whose content contains no fence marker. -/
theorem c3aux_findSub_tag_none (l : List Char)
    (hnf : ∀ i, fenceChars.isPrefixOf (l.drop i) = false) :
    findSub tagChars (fenceChars ++ (('\n' :: l) ++ ('\n' :: fenceChars))) = none := by
  set X := ('\n' :: l) ++ ('\n' :: fenceChars) with hX
  set W := fenceChars ++ X with hW
  have hWlen : W.length = l.length + 8 := by simp [hW, hX, fenceChars]
  have hW3 : W[3]? = some '\n' := by
    rw [hW, List.getElem?_append_right (by simp [fenceChars])]
    simp [fenceChars, hX]
  rw [c3aux_findSub_none_iff tagChars (by simp [tagChars]) W]
  intro i
  cases h : tagChars.isPrefixOf (W.drop i) with
  | false => rfl
  | true =>
    exfalso
    obtain ⟨hfo, hj⟩ := c3aux_tag_decomp _ h
    rw [List.getElem?_drop] at hj
    rcases Nat.lt_or_ge i 3 with h3 | h3
    · rw [c3aux_fence_charwise] at hfo
      obtain ⟨f0, f1, f2⟩ := hfo
      rw [List.getElem?_drop] at f0 f1 f2
      have hi3 : i = 0 ∨ i = 1 ∨ i = 2 := by omega
      rcases hi3 with rfl | rfl | rfl
      · rw [show (0 : Nat) + 3 = 3 from rfl, hW3] at hj
        exact absurd hj (by decide)
      · rw [show (1 : Nat) + 2 = 3 from rfl, hW3] at f2
        exact absurd f2 (by decide)
      · rw [show (2 : Nat) + 1 = 3 from rfl, hW3] at f1
        exact absurd f1 (by decide)
    · obtain ⟨k, rfl⟩ : ∃ k, i = 3 + k := ⟨i - 3, by omega⟩
      have hdrop : W.drop (3 + k) = X.drop k := by
        rw [hW, show (3 : Nat) + k = fenceChars.length + k from by simp [fenceChars],
          List.drop_append]
      rw [hdrop] at hfo
      have hk := c3aux_occ_X l hnf k hfo
      have hend : W[3 + k + 3]? = none :=
        List.getElem?_eq_none (by rw [hWlen]; omega)
      rw [hend] at hj
      cases hj

/-- A list kept whole by `dropWhile` starts with a failing character. -/
theorem c3aux_dropWhile_head (p : Char → Bool) (c : Char) (t : List Char)
    (h : List.dropWhile p (c :: t) = c :: t) : p c = false := by
  cases hp : p c
  · rfl
  · rw [List.dropWhile_cons, hp] at h
    simp only [if_true] at h
    have h1 := congrArg List.length h
    have h2 := (List.dropWhile_sublist (l := t) p).length_le
    simp only [List.length_cons] at h1
    omega

/-- Trimming a trimmed body wrapped in single newlines recovers the body. -/
theorem c3aux_trim_pad (l : List Char) (hne : l ≠ [])
    (hL : l.dropWhile isWs = l) (hR : trimEnd l = l) :
    jsTrimL (('\n' :: l) ++ ['\n']) = l := by
  have h1 : (('\n' :: l) ++ ['\n']).dropWhile isWs = l ++ ['\n'] := by
    rw [List.cons_append, List.dropWhile_cons, show isWs '\n' = true from rfl]
    simp only [if_true]
    cases l with
    | nil => exact absurd rfl hne
    | cons c t =>
      have hc : isWs c = false := c3aux_dropWhile_head isWs c t hL
      rw [List.cons_append, List.dropWhile_cons, hc]
      simp
  rw [jsTrimL, h1, trimEnd, List.reverse_append]
  have h2 : l.reverse.dropWhile isWs = l.reverse := by
    have := congrArg List.reverse hR
    rw [trimEnd, List.reverse_reverse] at this
    exact this
  simp only [List.reverse_cons, List.reverse_nil, List.nil_append, List.cons_append,
    List.singleton_append]
  rw [List.dropWhile_cons, show isWs '\n' = true from rfl]
  simp only [if_true]
  rw [h2, List.reverse_reverse]

/-- Trimming is the identity on a list with non-whitespace first and last
characters. -/
theorem c3aux_trim_id (l : List Char)
    (hhead : ∀ c, l.head? = some c → isWs c = false)
    (hlast : ∀ c, l.getLast? = some c → isWs c = false) : jsTrimL l = l := by
  cases l with
  | nil => rfl
  | cons c t =>
    have hc : isWs c = false := hhead c rfl
    rw [jsTrimL, List.dropWhile_cons, hc]
    simp only [if_false, Bool.false_eq_true]
    rw [trimEnd]
    rcases hrev : (c :: t).reverse with _ | ⟨d, r⟩
    · simp at hrev
    · have hd : isWs d = false := by
        refine hlast d ?_
        rw [List.getLast?_eq_head?_reverse, hrev]
        rfl
      have hkeep : List.dropWhile isWs (d :: r) = d :: r := by
        rw [List.dropWhile_cons, hd]
        simp
      rw [hkeep, ← hrev, List.reverse_reverse]

/-- Counterexample to C3 as stated: for the valid payload
`{"reason":"a```b"}` - whose string field contains a fence marker - the
tagged fenced wrapping is cut short at the first fence marker inside the
string (the lazy regex group), so extraction yields the fallback payload,
not a payload equal to parsing the inner content directly. -/
theorem c3_extractJson_counterexample :
    jsonParse "\x7b\"reason\":\"a```b\"\x7d" =
      some (.obj [("reason", .str "a```b")]) ∧
    extractJsonFromResponse "```json\n\x7b\"reason\":\"a```b\"\x7d\n```" = jsonFallback ∧
    jsonParse (extractJsonFromResponse "```json\n\x7b\"reason\":\"a```b\"\x7d\n```") ≠
      jsonParse "\x7b\"reason\":\"a```b\"\x7d" := by
  refine ⟨rfl, rfl, ?_⟩
  intro h
  rw [show jsonParse (extractJsonFromResponse "```json\n\x7b\"reason\":\"a```b\"\x7d\n```") =
      some (.obj [("decision", .str "Wait"), ("confidence", .num 50),
        ("reason", .str "JSON parsing error"), ("scenarios", .arr []),
        ("levels", .obj [("support", .arr []), ("resistance", .arr [])])]) from rfl,
    show jsonParse "\x7b\"reason\":\"a```b\"\x7d" =
      some (.obj [("reason", .str "a```b")]) from rfl] at h
  simp only [Option.some.injEq, Json.obj.injEq, List.cons.injEq, Prod.mk.injEq] at h
  exact absurd h.1.1 (by decide)

/-- C3 (amended): for every raw provider text wrapped in a fenced code
block (tagged `json` or untagged) whose inner content is valid structured
data, is trimmed, and contains no fence marker of its own, normalization
returns exactly the inner content, whose parse equals parsing the inner
content directly.  (The counterexample shows the no-fence-marker condition
is necessary for the tagged form: the regex group is lazy and closes at the
first fence marker after the tag.) -/
theorem c3_extractJson_fenced (inner : String) (v : Json)
    (hparse : jsonParse inner = some v)
    (htrim : jsTrim inner = inner)
    (hnof : findSub fenceChars inner.data = none) :
    extractJsonFromResponse ("```json\n" ++ inner ++ "\n```") = inner ∧
    extractJsonFromResponse ("```\n" ++ inner ++ "\n```") = inner ∧
    jsonParse (extractJsonFromResponse ("```json\n" ++ inner ++ "\n```")) = some v ∧
    jsonParse (extractJsonFromResponse ("```\n" ++ inner ++ "\n```")) = some v := by
  obtain ⟨l⟩ := inner
  have hnf : ∀ i, fenceChars.isPrefixOf (l.drop i) = false :=
    (c3aux_findSub_none_iff fenceChars (by simp [fenceChars]) l).mp hnof
  have hlne : l ≠ [] := by
    intro h0
    subst h0
    rw [show jsonParse (String.mk []) = none from rfl] at hparse
    cases hparse
  have hjs : jsTrimL l = l := congrArg String.data htrim
  have hL : l.dropWhile isWs = l := by
    have hd1 : (l.dropWhile isWs).length ≤ l.length := (List.dropWhile_sublist isWs).length_le
    have hd2 : (jsTrimL l).length ≤ (l.dropWhile isWs).length := by
      rw [jsTrimL, trimEnd]
      have hs := (List.dropWhile_sublist (l := (l.dropWhile isWs).reverse) isWs).length_le
      simpa using hs
    have hlen := congrArg List.length hjs
    exact (List.dropWhile_sublist isWs).eq_of_length (by omega)
  have hR : trimEnd l = l := by
    have hh := hjs
    rw [jsTrimL, hL] at hh
    exact hh
  set X := ('\n' :: l) ++ ('\n' :: fenceChars) with hX
  have hXl : X.getLast? = some bq := by
    rw [hX, List.getLast?_append]
    rfl
  have hdata1 : ("```json\n" ++ String.mk l ++ "\n```").data = tagChars ++ X := by
    rw [String.data_append, String.data_append]
    rw [show ("```json\n").data = tagChars ++ ['\n'] from by decide,
        show ("\n```").data = '\n' :: fenceChars from by decide]
    simp [hX]
  have hdata2 : ("```\n" ++ String.mk l ++ "\n```").data = fenceChars ++ X := by
    rw [String.data_append, String.data_append]
    rw [show ("```\n").data = fenceChars ++ ['\n'] from by decide,
        show ("\n```").data = '\n' :: fenceChars from by decide]
    simp [hX]
  have htrim1 : jsTrimL (tagChars ++ X) = tagChars ++ X := by
    apply c3aux_trim_id
    · intro c hc
      have hcons : tagChars ++ X = bq :: ([bq, bq, 'j', 's', 'o', 'n'] ++ X) := by
        simp [tagChars]
      rw [hcons, List.head?_cons] at hc
      simp only [Option.some.injEq] at hc
      rw [← hc]
      decide
    · intro c hc
      rw [List.getLast?_append, hXl] at hc
      rw [show (some bq).or tagChars.getLast? = some bq from rfl] at hc
      simp only [Option.some.injEq] at hc
      rw [← hc]
      decide
  have htrim2 : jsTrimL (fenceChars ++ X) = fenceChars ++ X := by
    apply c3aux_trim_id
    · intro c hc
      have hcons : fenceChars ++ X = bq :: ([bq, bq] ++ X) := by
        simp [fenceChars]
      rw [hcons, List.head?_cons] at hc
      simp only [Option.some.injEq] at hc
      rw [← hc]
      decide
    · intro c hc
      rw [List.getLast?_append, hXl] at hc
      rw [show (some bq).or fenceChars.getLast? = some bq from rfl] at hc
      simp only [Option.some.injEq] at hc
      rw [← hc]
      decide
  have htake : X.take (l.length + 2) = ('\n' :: l) ++ ['\n'] := by
    have hform : X = (('\n' :: l) ++ ['\n']) ++ fenceChars := by simp [hX]
    rw [hform, show l.length + 2 = (('\n' :: l) ++ ['\n']).length from by simp,
      List.take_left]
  have htfi1 : taggedFenceInner (tagChars ++ X) = some l := by
    have hfs0 : findSub tagChars (tagChars ++ X) = some 0 := by
      have hcons : tagChars ++ X = bq :: ([bq, bq, 'j', 's', 'o', 'n'] ++ X) := by
        simp [tagChars]
      rw [hcons, findSub, if_pos]
      rw [← hcons, List.isPrefixOf_iff_prefix]
      exact List.prefix_append _ _
    have hdrop7 : (tagChars ++ X).drop (0 + 7) = X := by
      rw [Nat.zero_add, show (7 : Nat) = tagChars.length from rfl, List.drop_left]
    simp only [taggedFenceInner, hfs0, hdrop7, c3aux_findSub_X l hnf]
    rw [htake, c3aux_trim_pad l hlne hL hR]
  have htfi2 : taggedFenceInner (fenceChars ++ X) = none := by
    simp only [taggedFenceInner, c3aux_findSub_tag_none l hnf]
  have hclean1 : cleanContentL (tagChars ++ X) = l := by
    simp only [cleanContentL, htrim1, htfi1]
  have hclean2 : cleanContentL (fenceChars ++ X) = l := by
    simp only [cleanContentL, htrim2, htfi2]
    have hpfx : fenceChars.isPrefixOf (fenceChars ++ X) = true :=
      List.isPrefixOf_iff_prefix.mpr (List.prefix_append _ _)
    have hsfx : fenceChars.isSuffixOf (fenceChars ++ X) = true := by
      rw [List.isSuffixOf_iff_suffix]
      have hform : fenceChars ++ X = (fenceChars ++ (('\n' :: l) ++ ['\n'])) ++ fenceChars := by
        simp [hX]
      rw [hform]
      exact List.suffix_append _ _
    rw [hpfx, hsfx]
    simp only [Bool.and_self, if_true]
    have hdrop3 : (fenceChars ++ X).drop 3 = X := by
      rw [show (3 : Nat) = fenceChars.length from rfl, List.drop_left]
    have hlen6 : (fenceChars ++ X).length - 6 = l.length + 2 := by
      simp [hX, fenceChars]
    rw [hdrop3, hlen6, htake, c3aux_trim_pad l hlne hL hR]
  have hne1 : ("```json\n" ++ String.mk l ++ "\n```") ≠ "" := by
    intro h
    have hd := congrArg String.data h
    rw [hdata1] at hd
    simp [tagChars] at hd
  have hne2 : ("```\n" ++ String.mk l ++ "\n```") ≠ "" := by
    intro h
    have hd := congrArg String.data h
    rw [hdata2] at hd
    simp [fenceChars] at hd
  have hcc1 : cleanContent ("```json\n" ++ String.mk l ++ "\n```") = String.mk l := by
    rw [cleanContent, hdata1, hclean1]
  have hcc2 : cleanContent ("```\n" ++ String.mk l ++ "\n```") = String.mk l := by
    rw [cleanContent, hdata2, hclean2]
  have hex1 : extractJsonFromResponse ("```json\n" ++ String.mk l ++ "\n```") = String.mk l := by
    simp only [extractJsonFromResponse, if_neg hne1, hcc1, hparse]
  have hex2 : extractJsonFromResponse ("```\n" ++ String.mk l ++ "\n```") = String.mk l := by
    simp only [extractJsonFromResponse, if_neg hne2, hcc2, hparse]
  exact ⟨hex1, hex2, by rw [hex1]; exact hparse, by rw [hex2]; exact hparse⟩

/-- Witness for C3 (amended) at the concrete inner content `{"a":1}`. -/
theorem c3_extractJson_fenced_witness :
    extractJsonFromResponse "```json\n\x7b\"a\":1\x7d\n```" = "\x7b\"a\":1\x7d" ∧
    extractJsonFromResponse "```\n\x7b\"a\":1\x7d\n```" = "\x7b\"a\":1\x7d" ∧
    jsonParse (extractJsonFromResponse "```json\n\x7b\"a\":1\x7d\n```") =
      some (.obj [("a", .num 1)]) := by
  have h := c3_extractJson_fenced "\x7b\"a\":1\x7d" (.obj [("a", .num 1)]) rfl (by decide) rfl
  exact ⟨h.1, h.2.1, h.2.2.1⟩
